import Mathlib

/-!
Verification of the approval-caching and call-sequence composition logic of
`src/dex/simple-exchange.ts` (class `SimpleExchange`): the allowance oracle
`hasAugustusAllowance`, the approval builder `getApproveSimpleParam`, the
call-sequence builder `buildSimpleParamWithoutWETHConversion`, and the
deadline placeholder `getLocalDeadlineAsFriendlyPlaceholder`.

Modelling choices:
* Addresses and amounts are `String`s, as in the TypeScript source.
* JavaScript `BigInt(string)` conversion is modelled by `jsBigInt?`
  (arbitrary-precision `Int`; `none` models the thrown conversion error).
* The I/O a call performs (cache membership reads, on-chain allowance reads,
  cache set adds) is recorded in an explicit `Trace`, in the order the
  source performs it; the cache service (`ICache`) is a set of
  (set key, element key) pairs.
* The external ABI encoder is modelled symbolically by `Calldata`.
-/

set_option autoImplicit false

namespace SimpleExchange

/-- JavaScript `String.prototype.toLowerCase()` for the ASCII strings used
here: every character lower-cased. -/
def jsToLower (s : String) : String := ⟨s.data.map Char.toLower⟩

/-- A run of decimal digits to its value; `none` if the run is empty or a
non-digit occurs. -/
def digitsToNat? : List Char → Option Nat :=
  go true 0
where
  go : Bool → Nat → List Char → Option Nat
    | true, _, [] => none
    | false, acc, [] => some acc
    | _, acc, c :: cs =>
      if c.isDigit then go false (10 * acc + (c.toNat - 48)) cs else none

/-- Whitespace trimming as in JavaScript string-to-number conversion. -/
def jsTrim (l : List Char) : List Char :=
  ((l.dropWhile Char.isWhitespace).reverse.dropWhile Char.isWhitespace).reverse

/-- JavaScript `BigInt(string)` on an integer literal: surrounding whitespace
is trimmed, the empty (or all-whitespace) string converts to `0`, an optional
sign is allowed before a run of decimal digits; anything else makes the
conversion throw, modelled by `none`.  (The hex/octal/binary literal forms
are not modelled; no string in this development uses them.) -/
def jsBigInt? (s : String) : Option Int :=
  match jsTrim s.data with
  | [] => some 0
  | '-' :: cs => (digitsToNat? cs).map fun n => -(n : Int)
  | '+' :: cs => (digitsToNat? cs).map fun n => (n : Int)
  | cs => (digitsToNat? cs).map fun n => (n : Int)

/-- Encoded call payloads.  The contract-call encoder (`@ethersproject/abi`)
is an external collaborator; payloads are modelled symbolically:
`approve token target amount` stands for
`simpleSwapHelper.encodeFunctionData('approve', [token, target, amount])`,
and `raw` wraps caller-supplied pre-encoded data such as the swap calldata. -/
inductive Calldata where
  | raw (s : String)
  | approve (token target amount : String)
  deriving DecidableEq, Repr

/-- Modelled from the spec: `MAX_UINT` (src/constants.ts is not under src/),
"the maximum representable value" — the largest uint256, as a decimal
string. -/
def MAX_UINT : String := toString (2 ^ 256 - 1 : Nat)

/-- The set-backed cache service (`ICache`): `sets` holds the
(set key, element key) memberships. -/
structure Cache where
  sets : List (String × String)
  deriving DecidableEq, Repr

/-- `ICache.sismember`. -/
def Cache.sismember (c : Cache) (k e : String) : Bool :=
  c.sets.contains (k, e)

/-- `ICache.sadd`. -/
def Cache.sadd (c : Cache) (k e : String) : Cache :=
  ⟨(k, e) :: c.sets⟩

/-- The configuration and collaborators a `SimpleExchange` instance closes
over: the constants `ETHER_ADDRESS` and `CACHE_PREFIX` (from src/constants.ts,
not under src/, kept abstract), `dexHelper.config.data.network`, the
`dexKey`, `augustusAddress`, and the on-chain allowance read
(`provider.eth.call` plus ABI decode inside `getAllowance`), modelled as a
pure map from (owner, token, target) to the decoded allowance string. -/
structure Env where
  ETHER_ADDRESS : String
  CACHE_PREFIX : String
  network : Nat
  dexKey : String
  augustusAddress : String
  allowanceOf : String → String → String → String

/-- `this.cacheApprovesKey`, as assigned in the constructor:
the template `CACHE_PREFIX + "_" + network + "_approves"`, lower-cased. -/
def Env.cacheApprovesKey (env : Env) : String :=
  jsToLower (env.CACHE_PREFIX ++ "_" ++ toString env.network ++ "_approves")

/-- The I/O one call performed, each list in execution order:
`cacheReads` the (set key, element key) arguments of `sismember` calls,
`chainReads` the (owner, token, target) arguments of on-chain allowance
reads, `cacheWrites` the (set key, element key) arguments of `sadd` calls. -/
structure Trace where
  cacheReads : List (String × String)
  chainReads : List (String × String × String)
  cacheWrites : List (String × String)
  deriving DecidableEq, Repr

/-- Result of one stateful call: the returned value or the thrown error,
the I/O trace, and the cache state afterwards. -/
structure Outcome (α : Type) where
  result : Except String α
  trace : Trace
  cache : Cache

/-- `SimpleExchange.hasAugustusAllowance(token, target, amount)`.
Mirrors the source line by line: the native-asset short-circuit, the
`sismember` lookup of `token + "_" + target` under `cacheApprovesKey`, the
single `getAllowance(augustusAddress, token, target)` read on a miss, the
`BigInt` comparison (either conversion may throw), and the `sadd` only when
the allowance is sufficient. -/
def hasAugustusAllowance (env : Env) (c : Cache)
    (token target amount : String) : Outcome Bool :=
  if jsToLower token == jsToLower env.ETHER_ADDRESS then
    ⟨.ok true, ⟨[], [], []⟩, c⟩
  else
    let cacheKey := token ++ "_" ++ target
    if c.sismember env.cacheApprovesKey cacheKey then
      ⟨.ok true, ⟨[(env.cacheApprovesKey, cacheKey)], [], []⟩, c⟩
    else
      let allowance := env.allowanceOf env.augustusAddress token target
      match jsBigInt? allowance, jsBigInt? amount with
      | some a, some m =>
        if m ≤ a then
          ⟨.ok true,
            ⟨[(env.cacheApprovesKey, cacheKey)],
             [(env.augustusAddress, token, target)],
             [(env.cacheApprovesKey, cacheKey)]⟩,
            c.sadd env.cacheApprovesKey cacheKey⟩
        else
          ⟨.ok false,
            ⟨[(env.cacheApprovesKey, cacheKey)],
             [(env.augustusAddress, token, target)], []⟩,
            c⟩
      | _, _ =>
        ⟨.error "Cannot convert to a BigInt",
          ⟨[(env.cacheApprovesKey, cacheKey)],
           [(env.augustusAddress, token, target)], []⟩,
          c⟩

/-- The `SimpleExchangeParam` record of src/types (callees, calldata,
values, networkFee). -/
structure SimpleExchangeParam where
  callees : List String
  calldata : List Calldata
  values : List String
  networkFee : String
  deriving DecidableEq, Repr

/-- `SimpleExchange.getApproveSimpleParam(token, target, amount)`: empty
parameter when the allowance oracle answers true, otherwise a single
`approve(token, target, MAX_UINT)` call addressed to `augustusAddress`;
a thrown oracle error propagates. -/
def getApproveSimpleParam (env : Env) (c : Cache)
    (token target amount : String) : Outcome SimpleExchangeParam :=
  let o := hasAugustusAllowance env c token target amount
  match o.result with
  | .error e => ⟨.error e, o.trace, o.cache⟩
  | .ok true => ⟨.ok ⟨[], [], [], "0"⟩, o.trace, o.cache⟩
  | .ok false =>
    ⟨.ok ⟨[env.augustusAddress], [Calldata.approve token target MAX_UINT],
          ["0"], "0"⟩,
      o.trace, o.cache⟩

/-- The `Omit<SimpleExchangeParam, 'networkFee'>` shape of the optional
`preCalls` argument. -/
structure PreCalls where
  callees : List String
  calldata : List Calldata
  values : List String
  deriving DecidableEq, Repr

/-- JavaScript `x || d` for an optional string: `undefined` and the empty
string (both falsy) fall back to the default.  Models `spender || swapCallee`. -/
def jsOrElse (s : Option String) (d : String) : String :=
  match s with
  | none => d
  | some v => if v = "" then d else v

/-- Modelled from the spec: `isETHAddress` (src/utils.ts is not under src/) —
"If `token` denotes the chain's native asset"; the native-asset test, a
case-insensitive comparison with the native-asset address (the same
comparison `hasAugustusAllowance` spells out inline). -/
def isETHAddress (env : Env) (a : String) : Bool :=
  jsToLower a == jsToLower env.ETHER_ADDRESS

/-- `SimpleExchange.buildSimpleParamWithoutWETHConversion`: obtains the
approval sub-sequence for (src, spender || swapCallee, srcAmount), computes
`swapValue = BigInt(networkFee) + (isETHAddress(src) ? BigInt(srcAmount) : 0n)`
(either conversion may throw), and concatenates
pre-calls ++ approval ++ swap step, passing `networkFee` through. -/
def buildSimpleParamWithoutWETHConversion (env : Env) (c : Cache)
    (src srcAmount dest destAmount : String)
    (swapCallData : String) (swapCallee : String)
    (spender : Option String) (networkFee : String)
    (preCalls : Option PreCalls) : Outcome SimpleExchangeParam :=
  let o := getApproveSimpleParam env c src (jsOrElse spender swapCallee) srcAmount
  match o.result with
  | .error e => ⟨.error e, o.trace, o.cache⟩
  | .ok approveParam =>
    match jsBigInt? networkFee,
          (if isETHAddress env src then jsBigInt? srcAmount else some 0) with
    | some f, some a =>
      let swapValue := toString (f + a)
      ⟨.ok ⟨(preCalls.elim [] PreCalls.callees) ++ approveParam.callees
              ++ [swapCallee],
            (preCalls.elim [] PreCalls.calldata) ++ approveParam.calldata
              ++ [Calldata.raw swapCallData],
            (preCalls.elim [] PreCalls.values) ++ approveParam.values
              ++ [swapValue],
            networkFee⟩,
        o.trace, o.cache⟩
    | _, _ => ⟨.error "Cannot convert to a BigInt", o.trace, o.cache⟩

/-- `FRIENDLY_LOCAL_DEADLINE = 7 * 24 * 60 * 60`. -/
def FRIENDLY_LOCAL_DEADLINE : Nat := 7 * 24 * 60 * 60

/-- `getLocalDeadlineAsFriendlyPlaceholder`, with the current time
`new Date().getTime()` (milliseconds since the epoch) passed explicitly:
`String(Math.floor(nowMs / 1000) + FRIENDLY_LOCAL_DEADLINE)`. -/
def getLocalDeadlineAsFriendlyPlaceholder (nowMs : Nat) : String :=
  toString (nowMs / 1000 + FRIENDLY_LOCAL_DEADLINE)

/-! ## Concrete fixtures for evaluation -/

/-- A concrete environment: the usual native-asset placeholder address,
cache key `dl`, mainnet, dex key `uniswapv2`, and every on-chain
allowance read answering `"100"`. -/
def envA : Env :=
  ⟨"0xEeeeeEeeeEeEeeEeEeEeeEEEeeeeEeeeeeeeEEeE", "dl", 1, "uniswapv2",
   "0xDEF171Fe48CF0115B1d80b88dc8eAB59176FEe57", fun _ _ _ => "100"⟩

/-- Like `envA` but every on-chain allowance read answers `"0"`. -/
def envZ : Env :=
  ⟨"0xEeeeeEeeeEeEeeEeEeEeeEEEeeeeEeeeeeeeEEeE", "dl", 1, "uniswapv2",
   "0xDEF171Fe48CF0115B1d80b88dc8eAB59176FEe57", fun _ _ _ => "0"⟩

/-- A cache already holding the approval fact for `0xToken`/`0xSpender`
under `envA`'s approves key. -/
def cacheW : Cache := ⟨[("dl_1_approves", "0xToken_0xSpender")]⟩

/-- A one-step pre-call block. -/
def preW : PreCalls := ⟨["0xPre"], [Calldata.raw "0xpre"], ["0"]⟩

/-- The approval sub-parameter produced under `envZ` (allowance 0) for
token `0xToken` and spender `0xCafe`. -/
def qW : SimpleExchangeParam :=
  ⟨["0xDEF171Fe48CF0115B1d80b88dc8eAB59176FEe57"],
   [Calldata.approve "0xToken" "0xCafe" MAX_UINT], ["0"], "0"⟩

/-- The full sequence built under `envZ` from `preW`, the approval step and
the swap step. -/
def pW : SimpleExchangeParam :=
  ⟨["0xPre", "0xDEF171Fe48CF0115B1d80b88dc8eAB59176FEe57", "0xCafe"],
   [Calldata.raw "0xpre", Calldata.approve "0xToken" "0xCafe" MAX_UINT,
    Calldata.raw "0xswap"],
   ["0", "0", "0"], "0"⟩

/-! ## Helper lemmas -/

/-- An element just added to a cache set is a member. -/
theorem Cache.sismember_sadd (c : Cache) (k e : String) :
    (c.sadd k e).sismember k e = true := by
  simp [Cache.sadd, Cache.sismember]

/-- A successful `getApproveSimpleParam` returns one of exactly two
parameter records: the empty one, or the single max-approve call addressed
to `augustusAddress`. -/
theorem getApproveSimpleParam_ok_cases (env : Env) (c : Cache)
    (token target amount : String) (q : SimpleExchangeParam)
    (hq : (getApproveSimpleParam env c token target amount).result =
      Except.ok q) :
    q = ⟨[], [], [], "0"⟩ ∨
    q = ⟨[env.augustusAddress], [Calldata.approve token target MAX_UINT],
         ["0"], "0"⟩ := by
  unfold getApproveSimpleParam at hq
  rcases hr : (hasAugustusAllowance env c token target amount).result with e | b
  · simp [hr] at hq
  · cases b <;> simp [hr] at hq <;> simp [hq]

/-- A successful `buildSimpleParamWithoutWETHConversion` whose approval
sub-parameter is `q` is exactly pre-calls ++ `q` ++ the swap step, with the
swap value computed from the parsed fee and (for a native source) the parsed
source amount. -/
theorem buildSimpleParam_ok_elim (env : Env) (c : Cache)
    (src srcAmount dest destAmount swapCallData swapCallee : String)
    (spender : Option String) (networkFee : String)
    (preCalls : Option PreCalls) (p q : SimpleExchangeParam)
    (hq : (getApproveSimpleParam env c src (jsOrElse spender swapCallee)
            srcAmount).result = Except.ok q)
    (hp : (buildSimpleParamWithoutWETHConversion env c src srcAmount dest
            destAmount swapCallData swapCallee spender networkFee
            preCalls).result = Except.ok p) :
    ∃ f a : Int, jsBigInt? networkFee = some f ∧
      (if isETHAddress env src then jsBigInt? srcAmount else some 0)
        = some a ∧
      p = ⟨(preCalls.elim [] PreCalls.callees) ++ q.callees ++ [swapCallee],
           (preCalls.elim [] PreCalls.calldata) ++ q.calldata
             ++ [Calldata.raw swapCallData],
           (preCalls.elim [] PreCalls.values) ++ q.values
             ++ [toString (f + a)],
           networkFee⟩ := by
  simp only [buildSimpleParamWithoutWETHConversion, hq] at hp
  rcases hf : jsBigInt? networkFee with _ | f <;> rw [hf] at hp
  · simp at hp
  · rcases hsa : (if isETHAddress env src then jsBigInt? srcAmount
        else some 0) with _ | a <;> rw [hsa] at hp
    · simp at hp
    · simp at hp
      exact ⟨f, a, rfl, rfl, by simp only [List.append_assoc]; exact hp.symm⟩

/-! ## Claims -/

/-- C1: for every token address equal case-insensitively to the
native-asset address, and every spender and amount,
`hasAugustusAllowance` returns true with no cache lookup, no on-chain
read and no cache write, leaving the cache unchanged. -/
theorem C1_native_short_circuit (env : Env) (c : Cache)
    (token target amount : String)
    (h : jsToLower token = jsToLower env.ETHER_ADDRESS) :
    hasAugustusAllowance env c token target amount =
      ⟨Except.ok true, ⟨[], [], []⟩, c⟩ := by
  simp [hasAugustusAllowance, h]

/-- Witness for C1 at a concrete input: the native asset itself as token. -/
theorem C1_native_short_circuit_witness :
    jsToLower envA.ETHER_ADDRESS = jsToLower envA.ETHER_ADDRESS ∧
    hasAugustusAllowance envA ⟨[]⟩ envA.ETHER_ADDRESS "0xSpender" "12345" =
      ⟨Except.ok true, ⟨[], [], []⟩, ⟨[]⟩⟩ :=
  ⟨rfl, C1_native_short_circuit envA ⟨[]⟩ envA.ETHER_ADDRESS "0xSpender"
    "12345" rfl⟩

/-- C3 as stated is false at a concrete instance: the set key built by the
constructor contains no integration identity (`dexKey`), and the element
key the lookup uses keeps the addresses' original casing. -/
theorem C3_counterexample :
    envA.cacheApprovesKey ≠
      jsToLower (envA.CACHE_PREFIX ++ "_" ++ toString envA.network ++ "_"
        ++ envA.dexKey ++ "_approves") ∧
    (hasAugustusAllowance envA ⟨[]⟩ "0xAB" "0xCD" "5").trace.cacheReads ≠
      [(envA.cacheApprovesKey, jsToLower "0xAB" ++ "_" ++ jsToLower "0xCD")]
    := by
  constructor
  · decide
  · decide

/-- C3 amended: the approval set key is the lower-cased
`{prefix}_{networkId}_approves` — with no integration identity, shared by
all integrations of one network — and the element key read and written is
`{tokenAddress}_{spenderAddress}` with the addresses used as given, not
lower-cased. -/
theorem C3_cache_keys (env : Env) (c : Cache) (token target amount : String)
    (hnat : jsToLower token ≠ jsToLower env.ETHER_ADDRESS) :
    env.cacheApprovesKey =
      jsToLower (env.CACHE_PREFIX ++ "_" ++ toString env.network
        ++ "_approves") ∧
    (hasAugustusAllowance env c token target amount).trace.cacheReads =
      [(env.cacheApprovesKey, token ++ "_" ++ target)] ∧
    ∀ w ∈ (hasAugustusAllowance env c token target amount).trace.cacheWrites,
      w = (env.cacheApprovesKey, token ++ "_" ++ target) := by
  have h2 : (hasAugustusAllowance env c token target amount).trace.cacheReads
        = [(env.cacheApprovesKey, token ++ "_" ++ target)] ∧
      ∀ w ∈ (hasAugustusAllowance env c token target amount).trace.cacheWrites,
        w = (env.cacheApprovesKey, token ++ "_" ++ target) := by
    simp only [hasAugustusAllowance, beq_iff_eq, if_neg hnat]
    rcases hmem : c.sismember env.cacheApprovesKey (token ++ "_" ++ target)
      with _ | _
    · rcases jsBigInt? (env.allowanceOf env.augustusAddress token target)
        with _ | a
      · rcases jsBigInt? amount with _ | m <;> simp
      · rcases jsBigInt? amount with _ | m
        · simp
        · by_cases hcmp : m ≤ a <;> simp [hcmp]
    · simp
  exact ⟨rfl, h2.1, h2.2⟩

/-- Witness for C3 amended, at a concrete non-native token. -/
theorem C3_cache_keys_witness :
    jsToLower "0xToken" ≠ jsToLower envA.ETHER_ADDRESS ∧
    envA.cacheApprovesKey =
      jsToLower (envA.CACHE_PREFIX ++ "_" ++ toString envA.network
        ++ "_approves") ∧
    (hasAugustusAllowance envA ⟨[]⟩ "0xToken" "0xSpender" "5").trace.cacheReads
      = [(envA.cacheApprovesKey, "0xToken" ++ "_" ++ "0xSpender")] :=
  ⟨by decide,
   (C3_cache_keys envA ⟨[]⟩ "0xToken" "0xSpender" "5" (by decide)).1,
   (C3_cache_keys envA ⟨[]⟩ "0xToken" "0xSpender" "5" (by decide)).2.1⟩

/-- C8: the deadline placeholder, called with a clock reading of
`1000 * t + r` milliseconds (that is, at second `t`), returns the decimal
string of `t` plus exactly 7 days = 604800 seconds. -/
theorem C8_friendly_deadline (t r : Nat) (hr : r < 1000) :
    getLocalDeadlineAsFriendlyPlaceholder (1000 * t + r) =
      toString (t + 604800) ∧
    FRIENDLY_LOCAL_DEADLINE = 604800 := by
  refine ⟨?_, rfl⟩
  unfold getLocalDeadlineAsFriendlyPlaceholder
  congr 1
  rw [Nat.mul_add_div (by norm_num) t r, Nat.div_eq_of_lt hr]
  rfl

/-- Witness for C8 at a concrete clock reading. -/
theorem C8_friendly_deadline_witness :
    (123 : Nat) < 1000 ∧
    getLocalDeadlineAsFriendlyPlaceholder (1000 * 1700000000 + 123) =
      toString (1700000000 + 604800) :=
  ⟨by decide,
   (C8_friendly_deadline 1700000000 123 (by decide)).1⟩

/-- C9 as stated is false at a concrete input: for a non-native token and
the malformed amount `"notanumber"` on an empty cache, the call is not
rejected before I/O — one cache read and one on-chain read happen first,
and only then the `BigInt` conversion error is raised. -/
theorem C9_counterexample :
    jsToLower "0xToken" ≠ jsToLower envA.ETHER_ADDRESS ∧
    jsBigInt? "notanumber" = none ∧
    (hasAugustusAllowance envA ⟨[]⟩ "0xToken" "0xSpender"
      "notanumber").result = Except.error "Cannot convert to a BigInt" ∧
    (hasAugustusAllowance envA ⟨[]⟩ "0xToken" "0xSpender"
      "notanumber").trace.cacheReads ≠ [] ∧
    (hasAugustusAllowance envA ⟨[]⟩ "0xToken" "0xSpender"
      "notanumber").trace.chainReads ≠ [] :=
  ⟨by decide, by decide, rfl, by decide, by decide⟩

/-- C9 amended: for a non-native token and a malformed amount string, on a
cache miss the invalid-amount error is raised only after one cache read and
one on-chain read have been performed; no cache write occurs and the cache
is unchanged. -/
theorem C9_malformed_amount (env : Env) (c : Cache)
    (token target amount : String)
    (hnat : jsToLower token ≠ jsToLower env.ETHER_ADDRESS)
    (hbad : jsBigInt? amount = none)
    (hmiss : c.sismember env.cacheApprovesKey (token ++ "_" ++ target)
      = false) :
    (hasAugustusAllowance env c token target amount).result =
      Except.error "Cannot convert to a BigInt" ∧
    (hasAugustusAllowance env c token target amount).trace =
      ⟨[(env.cacheApprovesKey, token ++ "_" ++ target)],
       [(env.augustusAddress, token, target)], []⟩ ∧
    (hasAugustusAllowance env c token target amount).cache = c := by
  simp only [hasAugustusAllowance, beq_iff_eq, if_neg hnat, hmiss]
  rcases jsBigInt? (env.allowanceOf env.augustusAddress token target)
    with _ | a <;> simp [hbad]

/-- Witness for C9 amended at a concrete malformed amount. -/
theorem C9_malformed_amount_witness :
    jsToLower "0xToken" ≠ jsToLower envA.ETHER_ADDRESS ∧
    jsBigInt? "notanumber" = none ∧
    Cache.sismember ⟨[]⟩ envA.cacheApprovesKey ("0xToken" ++ "_"
      ++ "0xSpender") = false ∧
    (hasAugustusAllowance envA ⟨[]⟩ "0xToken" "0xSpender"
      "notanumber").result = Except.error "Cannot convert to a BigInt" ∧
    (hasAugustusAllowance envA ⟨[]⟩ "0xToken" "0xSpender"
      "notanumber").cache = ⟨[]⟩ :=
  ⟨by decide, by decide, by decide,
   (C9_malformed_amount envA ⟨[]⟩ "0xToken" "0xSpender" "notanumber"
     (by decide) (by decide) (by decide)).1,
   (C9_malformed_amount envA ⟨[]⟩ "0xToken" "0xSpender" "notanumber"
     (by decide) (by decide) (by decide)).2.2⟩

/-- C2: for a non-native token on a cache miss with well-formed allowance
and amount strings, `hasAugustusAllowance` performs exactly one on-chain
allowance read (as the configured owner, for the token and spender), and
compares the two as arbitrary-precision integers: when allowance ≥ amount
it adds the (token, spender) element to the approval set and returns true,
otherwise it returns false and writes nothing, leaving the cache unchanged. -/
theorem C2_cache_miss_single_read (env : Env) (c : Cache)
    (token target amount : String) (a m : Int)
    (hnat : jsToLower token ≠ jsToLower env.ETHER_ADDRESS)
    (hmiss : c.sismember env.cacheApprovesKey (token ++ "_" ++ target)
      = false)
    (ha : jsBigInt? (env.allowanceOf env.augustusAddress token target)
      = some a)
    (hm : jsBigInt? amount = some m) :
    (hasAugustusAllowance env c token target amount).trace.chainReads =
      [(env.augustusAddress, token, target)] ∧
    (hasAugustusAllowance env c token target amount).result =
      Except.ok (decide (m ≤ a)) ∧
    (hasAugustusAllowance env c token target amount).cache =
      (if m ≤ a then c.sadd env.cacheApprovesKey (token ++ "_" ++ target)
       else c) ∧
    (hasAugustusAllowance env c token target amount).trace.cacheWrites =
      (if m ≤ a then [(env.cacheApprovesKey, token ++ "_" ++ target)]
       else []) := by
  by_cases hcmp : m ≤ a <;>
    simp [hasAugustusAllowance, beq_iff_eq, hnat, hmiss, ha, hm, hcmp]

/-- Witness for C2 at a concrete input: allowance 100 against amount 40. -/
theorem C2_cache_miss_single_read_witness :
    jsToLower "0xToken" ≠ jsToLower envA.ETHER_ADDRESS ∧
    Cache.sismember ⟨[]⟩ envA.cacheApprovesKey ("0xToken" ++ "_"
      ++ "0xSpender") = false ∧
    jsBigInt? (envA.allowanceOf envA.augustusAddress "0xToken" "0xSpender")
      = some 100 ∧
    jsBigInt? "40" = some 40 ∧
    (hasAugustusAllowance envA ⟨[]⟩ "0xToken" "0xSpender" "40").result =
      Except.ok true ∧
    (hasAugustusAllowance envA ⟨[]⟩ "0xToken" "0xSpender"
      "40").trace.chainReads = [(envA.augustusAddress, "0xToken",
        "0xSpender")] :=
  ⟨by decide, by decide, by decide, by decide,
   (C2_cache_miss_single_read envA ⟨[]⟩ "0xToken" "0xSpender" "40" 100 40
     (by decide) (by decide) (by decide) (by decide)).2.1,
   (C2_cache_miss_single_read envA ⟨[]⟩ "0xToken" "0xSpender" "40" 100 40
     (by decide) (by decide) (by decide) (by decide)).1⟩

/-- When the oracle answers true for a non-native token, the pair's element
key is a member of the resulting cache (either it already was, or the
sufficient branch just added it). -/
theorem hasAugustusAllowance_true_mem (env : Env) (c : Cache)
    (token target amount : String)
    (hnat : jsToLower token ≠ jsToLower env.ETHER_ADDRESS)
    (hok : (hasAugustusAllowance env c token target amount).result =
      Except.ok true) :
    ((hasAugustusAllowance env c token target amount).cache).sismember
      env.cacheApprovesKey (token ++ "_" ++ target) = true := by
  simp only [hasAugustusAllowance, beq_iff_eq, if_neg hnat] at hok ⊢
  cases hmem : c.sismember env.cacheApprovesKey (token ++ "_" ++ target) <;>
    rw [hmem] at hok
  · simp only [Bool.false_eq_true, if_false] at hok ⊢
    cases hA : jsBigInt? (env.allowanceOf env.augustusAddress token target)
      <;> rw [hA] at hok
    · simp at hok
    · cases hM : jsBigInt? amount <;> rw [hM] at hok
      · simp at hok
      · rename_i a m
        by_cases hcmp : m ≤ a
        · simp only [if_pos hcmp]
          exact Cache.sismember_sadd c _ _
        · simp [if_neg hcmp] at hok
  · simpa using hmem

/-- C4: for a non-native (token, spender) pair, a cache hit answers true
with zero on-chain reads; and whenever a call answers true, a repeat call
for the same pair (any amount) answers true with zero on-chain reads,
because the sufficient path cached the pair's key. -/
theorem C4_cache_hit_idempotent (env : Env) (c : Cache)
    (token target amount amount' : String)
    (hnat : jsToLower token ≠ jsToLower env.ETHER_ADDRESS) :
    (c.sismember env.cacheApprovesKey (token ++ "_" ++ target) = true →
      hasAugustusAllowance env c token target amount =
        ⟨Except.ok true,
         ⟨[(env.cacheApprovesKey, token ++ "_" ++ target)], [], []⟩, c⟩) ∧
    ((hasAugustusAllowance env c token target amount).result =
        Except.ok true →
      (hasAugustusAllowance env
          (hasAugustusAllowance env c token target amount).cache
          token target amount').result = Except.ok true ∧
      (hasAugustusAllowance env
          (hasAugustusAllowance env c token target amount).cache
          token target amount').trace.chainReads = []) := by
  have hit : ∀ c' : Cache,
      c'.sismember env.cacheApprovesKey (token ++ "_" ++ target) = true →
      hasAugustusAllowance env c' token target amount' =
        ⟨Except.ok true,
         ⟨[(env.cacheApprovesKey, token ++ "_" ++ target)], [], []⟩, c'⟩ := by
    intro c' hm
    simp [hasAugustusAllowance, beq_iff_eq, hnat, hm]
  constructor
  · intro hm
    simp [hasAugustusAllowance, beq_iff_eq, hnat, hm]
  · intro hok
    have hmem := hasAugustusAllowance_true_mem env c token target amount
      hnat hok
    rw [hit ((hasAugustusAllowance env c token target amount).cache) hmem]
    exact ⟨rfl, rfl⟩

/-- Witness for C4 at a concrete input: the pair is already cached. -/
theorem C4_cache_hit_idempotent_witness :
    jsToLower "0xToken" ≠ jsToLower envA.ETHER_ADDRESS ∧
    hasAugustusAllowance envA cacheW "0xToken" "0xSpender" "7" =
      ⟨Except.ok true,
       ⟨[(envA.cacheApprovesKey, "0xToken" ++ "_" ++ "0xSpender")], [], []⟩,
       cacheW⟩ :=
  ⟨by decide,
   (C4_cache_hit_idempotent envA cacheW "0xToken" "0xSpender" "7" "7"
     (by decide)).1 (by decide)⟩

/-- C5: `getApproveSimpleParam` returns the empty sub-sequence (empty
callees, calldata and values, networkFee "0") when the oracle answers
true, and exactly one step — callee the configured router address, payload
`approve(token, target, MAX_UINT)` (the maximum uint256, independent of the
requested amount), value "0" — when it answers false. -/
theorem C5_approve_param (env : Env) (c : Cache)
    (token target amount : String) (b : Bool)
    (h : (hasAugustusAllowance env c token target amount).result =
      Except.ok b) :
    (getApproveSimpleParam env c token target amount).result =
      Except.ok (if b then (⟨[], [], [], "0"⟩ : SimpleExchangeParam)
        else ⟨[env.augustusAddress],
              [Calldata.approve token target MAX_UINT], ["0"], "0"⟩) := by
  cases b <;> simp [getApproveSimpleParam, h]

/-- Witness for C5 at a concrete input on the insufficient branch
(allowance 0 < amount 100). -/
theorem C5_approve_param_witness :
    (hasAugustusAllowance envZ ⟨[]⟩ "0xToken" "0xSpender" "100").result =
      Except.ok false ∧
    (getApproveSimpleParam envZ ⟨[]⟩ "0xToken" "0xSpender" "100").result =
      Except.ok (⟨[envZ.augustusAddress],
        [Calldata.approve "0xToken" "0xSpender" MAX_UINT], ["0"], "0"⟩ :
          SimpleExchangeParam) :=
  ⟨rfl,
   C5_approve_param envZ ⟨[]⟩ "0xToken" "0xSpender" "100" false rfl⟩

/-- C6: in a successful build, the swap step (the last value in the
sequence) carries `networkFee + srcAmount` when the source token is the
native asset and `networkFee` alone otherwise, computed as
arbitrary-precision integers; the approval sub-sequence's steps all carry
value "0". -/
theorem C6_swap_value (env : Env) (c : Cache)
    (src srcAmount dest destAmount swapCallData swapCallee : String)
    (spender : Option String) (networkFee : String)
    (preCalls : Option PreCalls) (f a : Int) (p q : SimpleExchangeParam)
    (hf : jsBigInt? networkFee = some f)
    (ha : jsBigInt? srcAmount = some a)
    (hq : (getApproveSimpleParam env c src (jsOrElse spender swapCallee)
            srcAmount).result = Except.ok q)
    (hp : (buildSimpleParamWithoutWETHConversion env c src srcAmount dest
            destAmount swapCallData swapCallee spender networkFee
            preCalls).result = Except.ok p) :
    p.values.getLast? =
      some (toString (f + (if isETHAddress env src then a else 0))) ∧
    (q.values = [] ∨ q.values = ["0"]) := by
  obtain ⟨f', a', hf', ha', hpEq⟩ := buildSimpleParam_ok_elim env c src
    srcAmount dest destAmount swapCallData swapCallee spender networkFee
    preCalls p q hq hp
  have hff : f' = f := Option.some.inj (hf'.symm.trans hf)
  constructor
  · subst hpEq
    by_cases hn : isETHAddress env src = true
    · rw [if_pos hn] at ha'
      rw [if_pos hn]
      have haa : a' = a := Option.some.inj (ha'.symm.trans ha)
      simp [hff, haa]
    · rw [if_neg hn] at ha'
      rw [if_neg hn]
      have haa : a' = 0 := (Option.some.inj ha').symm
      simp [hff, haa]
  · rcases getApproveSimpleParam_ok_cases env c src
      (jsOrElse spender swapCallee) srcAmount q hq with h1 | h1 <;>
      simp [h1]

/-- Witness for C6 at a concrete non-native source: fee 3, amount 50,
sufficient allowance, so the swap value is "3". -/
theorem C6_swap_value_witness :
    jsBigInt? "3" = some 3 ∧ jsBigInt? "50" = some 50 ∧
    (getApproveSimpleParam envA ⟨[]⟩ "0xToken" (jsOrElse none "0xCafe")
      "50").result = Except.ok (⟨[], [], [], "0"⟩ : SimpleExchangeParam) ∧
    (buildSimpleParamWithoutWETHConversion envA ⟨[]⟩ "0xToken" "50" "0xDest"
      "60" "0xswap" "0xCafe" none "3" none).result =
      Except.ok (⟨["0xCafe"], [Calldata.raw "0xswap"], ["3"], "3"⟩ :
        SimpleExchangeParam) ∧
    (⟨["0xCafe"], [Calldata.raw "0xswap"], ["3"], "3"⟩ :
      SimpleExchangeParam).values.getLast? =
      some (toString ((3 : Int) +
        (if isETHAddress envA "0xToken" then (50 : Int) else 0))) :=
  ⟨by decide, by decide, rfl, rfl,
   (C6_swap_value envA ⟨[]⟩ "0xToken" "50" "0xDest" "60" "0xswap" "0xCafe"
     none "3" none 3 50
     (⟨["0xCafe"], [Calldata.raw "0xswap"], ["3"], "3"⟩ :
       SimpleExchangeParam)
     (⟨[], [], [], "0"⟩ : SimpleExchangeParam)
     (by decide) (by decide) rfl rfl).1⟩

/-- C7: a successful build returns exactly the caller-supplied pre-calls,
then the approval sub-sequence, then the swap step (callee the swap target,
payload the caller's swap calldata) — so the swap step is last, at index
(pre-call count + approval count), every approval index is below it, and
every pre-call index is below every approval index — and the returned
networkFee is the request's networkFee unchanged. -/
theorem C7_sequence_layout (env : Env) (c : Cache)
    (src srcAmount dest destAmount swapCallData swapCallee : String)
    (spender : Option String) (networkFee : String)
    (preCalls : Option PreCalls) (p q : SimpleExchangeParam)
    (hq : (getApproveSimpleParam env c src (jsOrElse spender swapCallee)
            srcAmount).result = Except.ok q)
    (hp : (buildSimpleParamWithoutWETHConversion env c src srcAmount dest
            destAmount swapCallData swapCallee spender networkFee
            preCalls).result = Except.ok p) :
    p.callees = (preCalls.elim [] PreCalls.callees) ++ q.callees
      ++ [swapCallee] ∧
    p.calldata = (preCalls.elim [] PreCalls.calldata) ++ q.calldata
      ++ [Calldata.raw swapCallData] ∧
    p.networkFee = networkFee ∧
    p.callees.getLast? = some swapCallee ∧
    p.callees.length =
      (preCalls.elim [] PreCalls.callees).length + q.callees.length + 1 := by
  obtain ⟨f, a, hf, ha, hpEq⟩ := buildSimpleParam_ok_elim env c src
    srcAmount dest destAmount swapCallData swapCallee spender networkFee
    preCalls p q hq hp
  subst hpEq
  refine ⟨rfl, rfl, rfl, List.getLast?_concat _, ?_⟩
  simp only [List.length_append, List.length_cons, List.length_nil]

/-- Witness for C7 at a concrete input with one pre-call and an
insufficient allowance (so the approval step is present). -/
theorem C7_sequence_layout_witness :
    (getApproveSimpleParam envZ ⟨[]⟩ "0xToken" (jsOrElse none "0xCafe")
      "100").result = Except.ok qW ∧
    (buildSimpleParamWithoutWETHConversion envZ ⟨[]⟩ "0xToken" "100"
      "0xDest" "9" "0xswap" "0xCafe" none "0" (some preW)).result =
      Except.ok pW ∧
    pW.callees = ((some preW).elim [] PreCalls.callees) ++ qW.callees
      ++ ["0xCafe"] ∧
    pW.networkFee = "0" ∧
    pW.callees.getLast? = some "0xCafe" :=
  have h := C7_sequence_layout envZ ⟨[]⟩ "0xToken" "100" "0xDest" "9"
    "0xswap" "0xCafe" none "0" (some preW) pW qW rfl rfl
  ⟨rfl, rfl, h.1, h.2.2.1, h.2.2.2.1⟩

/-- C10: when the pre-calls' three arrays share one length k, a successful
build returns three arrays of the common length k + (approval step count)
+ 1; and the approval sub-parameter always reports networkFee "0" and has
0 or 1 steps. -/
theorem C10_array_lengths (env : Env) (c : Cache)
    (src srcAmount dest destAmount swapCallData swapCallee : String)
    (spender : Option String) (networkFee : String)
    (preCalls : Option PreCalls) (k : Nat) (p q : SimpleExchangeParam)
    (hk1 : (preCalls.elim [] PreCalls.callees).length = k)
    (hk2 : (preCalls.elim [] PreCalls.calldata).length = k)
    (hk3 : (preCalls.elim [] PreCalls.values).length = k)
    (hq : (getApproveSimpleParam env c src (jsOrElse spender swapCallee)
            srcAmount).result = Except.ok q)
    (hp : (buildSimpleParamWithoutWETHConversion env c src srcAmount dest
            destAmount swapCallData swapCallee spender networkFee
            preCalls).result = Except.ok p) :
    p.callees.length = k + q.callees.length + 1 ∧
    p.calldata.length = k + q.callees.length + 1 ∧
    p.values.length = k + q.callees.length + 1 ∧
    q.networkFee = "0" ∧
    (q.callees.length = 0 ∨ q.callees.length = 1) := by
  obtain ⟨f, a, hf, ha, hpEq⟩ := buildSimpleParam_ok_elim env c src
    srcAmount dest destAmount swapCallData swapCallee spender networkFee
    preCalls p q hq hp
  rcases getApproveSimpleParam_ok_cases env c src
      (jsOrElse spender swapCallee) srcAmount q hq with h1 | h1 <;>
    subst hpEq <;> subst h1 <;>
    refine ⟨?_, ?_, ?_, rfl, by simp⟩ <;>
    simp only [List.length_append, List.length_cons, List.length_nil,
      hk1, hk2, hk3]

/-- Witness for C10 at a concrete input: one pre-call, one approval step. -/
theorem C10_array_lengths_witness :
    preW.callees.length = 1 ∧ preW.calldata.length = 1 ∧
    preW.values.length = 1 ∧
    (getApproveSimpleParam envZ ⟨[]⟩ "0xToken" (jsOrElse none "0xCafe")
      "100").result = Except.ok qW ∧
    (buildSimpleParamWithoutWETHConversion envZ ⟨[]⟩ "0xToken" "100"
      "0xDest" "9" "0xswap" "0xCafe" none "0" (some preW)).result =
      Except.ok pW ∧
    pW.callees.length = 1 + qW.callees.length + 1 ∧
    pW.values.length = 1 + qW.callees.length + 1 ∧
    qW.networkFee = "0" :=
  have h := C10_array_lengths envZ ⟨[]⟩ "0xToken" "100" "0xDest" "9"
    "0xswap" "0xCafe" none "0" (some preW) 1 pW qW rfl rfl rfl rfl rfl
  ⟨rfl, rfl, rfl, rfl, rfl, h.1, h.2.2.1, h.2.2.2.1⟩

end SimpleExchange
